import Mathlib

/-! wager-bot: frame classification, command dispatch and the web-socket session

A shallow embedding of `slack/events.go`, `slack/bot.go` and `slack/ws.go`.

* Go errors are values of `GoError`; a call returning `(T, error)` is an `Except GoError T`.
* `uint64` / `int64` fields are `Nat` / `Int`; the one place where arithmetic is done on a
  machine integer (`messageId++` in `writePump`) reduces modulo `2 ^ 64`.
* The standard library is modelled at its boundary: `encoding/json` as a walk over the syntax
  tree of the payload, `regexp` as the match function of a compiled pattern, `net/http`,
  the dialer and the transport as the outcomes they hand back.
-/

namespace Slack

/-! ## Go errors -/

/-- The errors the embedded code can observe. -/
inductive GoError where
  | malformed : GoError
  | unmarshalType (field : String) : GoError
  | network (msg : String) : GoError
  | status (body : String) : GoError
  | regexpCompile (pattern : String) : GoError
  | transport (msg : String) : GoError
  deriving DecidableEq, Repr

/-! ## `encoding/json`, as far as the structs of this package use it -/

/-- A JSON number literal. `strconv.ParseInt` / `ParseUint` accept only literals without
fraction and exponent; every other literal is `other`. -/
inductive NumLit where
  | int (neg : Bool) (mag : Nat) : NumLit
  | other : NumLit
  deriving DecidableEq, Repr

/-- The syntax tree of a JSON text. Object members are kept in source order, duplicates
included, because the decoder visits them in that order. -/
inductive JSON where
  | null : JSON
  | bool (b : Bool) : JSON
  | num (n : NumLit) : JSON
  | str (s : String) : JSON
  | arr (xs : List JSON) : JSON
  | obj (members : List (String × JSON)) : JSON

/-- The bytes handed to `json.Unmarshal` (`raw`, as `string(data)` shows them) together with
the syntax tree they spell; `doc = none` when the bytes are not valid JSON. -/
structure Payload where
  raw : String
  doc : Option JSON

/-- Case folding of one rune of an object key: ASCII letters fold to upper case, and the two
non-ASCII runes whose simple fold is an ASCII letter (U+017F, U+212A) fold to it. Other runes
never fold to ASCII and are left alone. -/
def foldRune (c : Char) : Char :=
  if 97 ≤ c.toNat ∧ c.toNat ≤ 122 then Char.ofNat (c.toNat - 32)
  else if c.toNat = 0x17F then Char.ofNat 83
  else if c.toNat = 0x212A then Char.ofNat 75
  else c

/-- The folded form of an object key or field name. -/
def foldName (s : String) : List Char := s.data.map foldRune

/-- A key selects the struct field of that name, exactly or up to case. -/
def keyMatches (key name : String) : Bool := foldName key == foldName name

/-- Decoding of one value into a `string` field holding `cur`. -/
def decodeString (field : String) (v : JSON) (cur : String) : Except GoError String :=
  match v with
  | .str s => .ok s
  | .null => .ok cur
  | _ => .error (.unmarshalType field)

/-- Decoding of one value into a `bool` field holding `cur`. -/
def decodeBool (field : String) (v : JSON) (cur : Bool) : Except GoError Bool :=
  match v with
  | .bool b => .ok b
  | .null => .ok cur
  | _ => .error (.unmarshalType field)

/-- Decoding of one value into an `int64` (or `int`) field holding `cur`. -/
def decodeInt64 (field : String) (v : JSON) (cur : Int) : Except GoError Int :=
  match v with
  | .num (.int neg mag) =>
    let n : Int := if neg then -(mag : Int) else (mag : Int)
    if -(2 ^ 63 : Int) ≤ n ∧ n < 2 ^ 63 then .ok n else .error (.unmarshalType field)
  | .null => .ok cur
  | _ => .error (.unmarshalType field)

/-- Decoding of one value into a `uint64` field holding `cur`: no sign is accepted. -/
def decodeUint64 (field : String) (v : JSON) (cur : Nat) : Except GoError Nat :=
  match v with
  | .num (.int neg mag) =>
    if neg = false ∧ mag < 2 ^ 64 then .ok mag else .error (.unmarshalType field)
  | .null => .ok cur
  | _ => .error (.unmarshalType field)

/-- The members of an object are decoded in order into the struct `s`. A value of the wrong
type leaves its field alone, decoding goes on, and the first such error is what is returned. -/
def objectInto {S : Type} (set : S → String → JSON → Except GoError S) :
    List (String × JSON) → S → Option GoError → Except GoError S
  | [], s, none => .ok s
  | [], _, some e => .error e
  | (k, v) :: ms, s, saved =>
    match set s k v with
    | .ok s' => objectInto set ms s' saved
    | .error e => objectInto set ms s (some (saved.getD e))

/-- The function `json.Unmarshal(data, &s)` for a struct `s` whose members are set by `set`. -/
def unmarshal {S : Type} (set : S → String → JSON → Except GoError S) (target : String)
    (data : Payload) (s : S) : Except GoError S :=
  match data.doc with
  | none => .error .malformed
  | some .null => .ok s
  | some (.obj ms) => objectInto set ms s none
  | some _ => .error (.unmarshalType target)

/-! ## `slack/events.go` -/

structure Error where
  Code : Int
  Msg : String
  deriving DecidableEq, Repr

structure Ping where
  Id : Nat
  Type_ : String
  deriving DecidableEq, Repr

def Ping.SetId (p : Ping) (id : Nat) : Ping := { p with Id := id }

def NewPing : Ping := { Id := 0, Type_ := "ping" }

structure OutgoingMessage where
  Id : Nat
  Type_ : String
  Channel : String
  Text : String
  deriving DecidableEq, Repr

def OutgoingMessage.SetId (m : OutgoingMessage) (id : Nat) : OutgoingMessage := { m with Id := id }

def NewOutgoingMessage (channel : String) (text : String) : OutgoingMessage :=
  { Id := 0, Type_ := "message", Channel := channel, Text := text }

/-- The two implementations of the interface `IDer`. -/
inductive IDer where
  | ping (p : Ping) : IDer
  | message (m : OutgoingMessage) : IDer
  deriving DecidableEq, Repr

def IDer.SetId (v : IDer) (id : Nat) : IDer :=
  match v with
  | .ping p => .ping (p.SetId id)
  | .message m => .message (m.SetId id)

/-- The `id` a value carries on the wire. -/
def IDer.Id (v : IDer) : Nat :=
  match v with
  | .ping p => p.Id
  | .message m => m.Id

structure OutgoingMessageReply where
  Ok : Bool
  ReplyTo : Nat
  Timestamp : String
  Text : String
  Error : Option Error
  deriving DecidableEq, Repr

structure IncomingMessage where
  User : String
  Channel : String
  Text : String
  Timestamp : String
  deriving DecidableEq, Repr

structure EventType where
  Type_ : String
  ReplyTo : Int
  deriving DecidableEq, Repr

def Error.setMember (e : Error) (key : String) (v : JSON) : Except GoError Error :=
  if keyMatches key "code" then (decodeInt64 "code" v e.Code).map (fun n => { e with Code := n })
  else if keyMatches key "msg" then (decodeString "msg" v e.Msg).map (fun s => { e with Msg := s })
  else .ok e

/-- Decoding of one value into the `*Error` field holding `cur`: `null` sets the pointer to
nil, an object is decoded into the pointee (a fresh one when the pointer is nil). -/
def decodeErrorPtr (field : String) (v : JSON) (cur : Option Error) :
    Except GoError (Option Error) :=
  match v with
  | .null => .ok none
  | .obj ms => (objectInto Error.setMember ms (cur.getD { Code := 0, Msg := "" }) none).map some
  | _ => .error (.unmarshalType field)

def EventType.setMember (e : EventType) (key : String) (v : JSON) : Except GoError EventType :=
  if keyMatches key "type" then
    (decodeString "type" v e.Type_).map (fun s => { e with Type_ := s })
  else if keyMatches key "reply_to" then
    (decodeInt64 "reply_to" v e.ReplyTo).map (fun n => { e with ReplyTo := n })
  else .ok e

def IncomingMessage.setMember (m : IncomingMessage) (key : String) (v : JSON) :
    Except GoError IncomingMessage :=
  if keyMatches key "user" then
    (decodeString "user" v m.User).map (fun s => { m with User := s })
  else if keyMatches key "channel" then
    (decodeString "channel" v m.Channel).map (fun s => { m with Channel := s })
  else if keyMatches key "text" then
    (decodeString "text" v m.Text).map (fun s => { m with Text := s })
  else if keyMatches key "ts" then
    (decodeString "ts" v m.Timestamp).map (fun s => { m with Timestamp := s })
  else .ok m

def OutgoingMessageReply.setMember (r : OutgoingMessageReply) (key : String) (v : JSON) :
    Except GoError OutgoingMessageReply :=
  if keyMatches key "ok" then
    (decodeBool "ok" v r.Ok).map (fun b => { r with Ok := b })
  else if keyMatches key "reply_to" then
    (decodeUint64 "reply_to" v r.ReplyTo).map (fun n => { r with ReplyTo := n })
  else if keyMatches key "ts" then
    (decodeString "ts" v r.Timestamp).map (fun s => { r with Timestamp := s })
  else if keyMatches key "text" then
    (decodeString "text" v r.Text).map (fun s => { r with Text := s })
  else if keyMatches key "error" then
    (decodeErrorPtr "error" v r.Error).map (fun e => { r with Error := e })
  else .ok r

def EventType.GetType (e : EventType) : String :=
  if e.Type_ ≠ "" then e.Type_
  else if e.ReplyTo > 0 then "reply"
  else ""

/-- What `unmarshalEvent` returns behind `interface{}`. -/
inductive Event where
  | incoming (m : IncomingMessage) : Event
  | reply (r : OutgoingMessageReply) : Event
  | raw (s : String) : Event
  deriving DecidableEq, Repr

/-- The helper `jsonUnmarshal(data, v)`: the decoded `v`, or the decoder's error. -/
def jsonUnmarshal {S : Type} (set : S → String → JSON → Except GoError S) (target : String)
    (data : Payload) (v : S) : Except GoError S :=
  match unmarshal set target data v with
  | .error err => .error err
  | .ok v' => .ok v'

def unmarshalEvent (data : Payload) : Except GoError Event :=
  match jsonUnmarshal EventType.setMember "EventType" data { Type_ := "", ReplyTo := 0 } with
  | .error err => .error err
  | .ok event =>
    if event.GetType = "message" then
      (jsonUnmarshal IncomingMessage.setMember "IncomingMessage" data
        { User := "", Channel := "", Text := "", Timestamp := "" }).map Event.incoming
    else if event.GetType = "reply" then
      (jsonUnmarshal OutgoingMessageReply.setMember "OutgoingMessageReply" data
        { Ok := false, ReplyTo := 0, Timestamp := "", Text := "", Error := none }).map Event.reply
    else .ok (.raw data.raw)

/-! ## `slack/ws.go` -/

/-- A buffered Go channel: the values waiting in it (oldest first), its capacity, and whether
`close` has been called on it. -/
structure Chan (α : Type) where
  buf : List α
  cap : Nat
  closed : Bool

/-- What is written to the transport: the JSON encoding of a value (`WriteJSON`) or a close
control frame (`WriteMessage(websocket.CloseMessage, ...)`). -/
inductive Frame where
  | json (v : IDer) : Frame
  | close (code : Nat) (text : String) : Frame
  deriving DecidableEq, Repr

/-- The transport `*websocket.Conn`: the endpoint dialled, the frames written to it so far,
and whether `Close` has been called. -/
structure Conn where
  url : String
  sent : List Frame
  closed : Bool

structure WebSocket where
  in_ : Chan Event
  out : Chan IDer
  conn : Conn
  isStopped : Bool

/-- The body of an HTTP response, read as a stream: all its bytes (`raw`), and the first
JSON value the stream spells (`first`); `first = none` when the stream is empty or does not
start with a JSON value. Bytes after the first value are part of `raw` only. -/
structure Body where
  raw : String
  first : Option JSON

/-- An HTTP response: status code and body. -/
structure HttpResponse where
  StatusCode : Nat
  Body : Body

/-- The call `json.NewDecoder(body).Decode(&s)` for a struct `s` whose members are set by
`set`: the first JSON value of the stream is decoded into `s`, and whatever follows it in
the stream is left unread. -/
def decoderDecode {S : Type} (set : S → String → JSON → Except GoError S) (target : String)
    (body : Body) (s : S) : Except GoError S :=
  match body.first with
  | none => .error .malformed
  | some .null => .ok s
  | some (.obj ms) => objectInto set ms s none
  | some _ => .error (.unmarshalType target)

/-- The outside world of the constructors: what `http.Get` answers for a URL, and whether
`websocket.DefaultDialer.Dial` fails for an endpoint. -/
structure World where
  httpGet : String → Except GoError HttpResponse
  dial : String → Option GoError

def HandshakeUrl (token : String) : String := "https://slack.com/api/rtm.connect?token=" ++ token

def StatusOK : Nat := 200

def CloseNormalClosure : Nat := 1000

structure handshake where
  Ok : Bool
  Url : String
  deriving DecidableEq, Repr

def handshake.setMember (h : handshake) (key : String) (v : JSON) : Except GoError handshake :=
  if keyMatches key "Ok" then (decodeBool "Ok" v h.Ok).map (fun b => { h with Ok := b })
  else if keyMatches key "Url" then (decodeString "Url" v h.Url).map (fun s => { h with Url := s })
  else .ok h

def errorFromResponse (res : HttpResponse) : GoError := .status res.Body.raw

def doConnectHandshake (w : World) (token : String) : Except GoError handshake :=
  match w.httpGet (HandshakeUrl token) with
  | .error err => .error err
  | .ok res =>
    if res.StatusCode ≠ StatusOK then .error (errorFromResponse res)
    else
      match decoderDecode handshake.setMember "handshake" res.Body { Ok := false, Url := "" } with
      | .error err => .error err
      | .ok hs => .ok hs

def NewWebSocket (w : World) (token : String) : Except GoError WebSocket :=
  match doConnectHandshake w token with
  | .error err => .error err
  | .ok hs =>
    match w.dial hs.Url with
    | some err => .error err
    | none =>
      .ok { in_ := { buf := [], cap := 256, closed := false }
            out := { buf := [], cap := 256, closed := false }
            conn := { url := hs.Url, sent := [], closed := false }
            isStopped := false }

/-- The actions `Stop` performs, in the order it performs them. -/
inductive Effect where
  | closeOut : Effect
  | writeClose : Effect
  | sleep : Effect
  | closeIn : Effect
  | connClose : Effect
  deriving DecidableEq, Repr

/-- How a call ends: it returns its `error` result, or it panics. -/
inductive Outcome where
  | returned (err : Option GoError) : Outcome
  | panicked : Outcome
  deriving DecidableEq, Repr

/-- The method `Stop`. `writeErr` is what `ws.conn.WriteMessage` answers for the close frame.
The result is the session afterwards, how the call ended, and the actions it performed.
`close` on a channel that is already closed panics; the deferred `ws.conn.Close()` runs on
every path past the guard. -/
def WebSocket.Stop (ws : WebSocket) (writeErr : Option GoError) :
    WebSocket × Outcome × List Effect :=
  if ws.isStopped then (ws, .returned none, [])
  else
    let ws1 := { ws with isStopped := true }
    if ws1.out.closed then
      ({ ws1 with conn := { ws1.conn with closed := true } }, .panicked, [.connClose])
    else
      let ws2 := { ws1 with out := { ws1.out with closed := true } }
      let err := writeErr
      let ws3 :=
        match err with
        | none =>
          { ws2 with conn := { ws2.conn with sent := ws2.conn.sent ++ [Frame.close CloseNormalClosure ""] } }
        | some _ => ws2
      if ws3.in_.closed then
        ({ ws3 with conn := { ws3.conn with closed := true } }, .panicked,
          [.closeOut, .writeClose, .sleep, .connClose])
      else
        let ws4 := { ws3 with in_ := { ws3.in_ with closed := true } }
        ({ ws4 with conn := { ws4.conn with closed := true } }, .returned err,
          [.closeOut, .writeClose, .sleep, .closeIn, .connClose])

/-- Where the goroutine running `writePump` is. -/
inductive PumpStatus where
  | running : PumpStatus
  | blockedOnSend : PumpStatus
  | returned : PumpStatus
  | panicked : PumpStatus
  deriving DecidableEq, Repr

/-- The session together with the local state of `writePump`. -/
structure PumpState where
  ws : WebSocket
  messageId : Nat
  status : PumpStatus

/-- What the scheduler lets happen next around the write pump. -/
inductive Sched where
  | send (v : IDer) : Sched
  | tick : Sched
  | recv (writeErr : Option GoError) : Sched
  | stop (writeErr : Option GoError) : Sched
  deriving DecidableEq, Repr

/-- One scheduling step.
* `send v`: some goroutine runs `ws.WriteChannel() <- v`; it goes through when the channel is
  open and has room (otherwise the sender panics or stays blocked and the session is unchanged).
* `tick`: the `select` of `writePump` takes `<-ticker.C` and runs `ws.out <- NewPing()`.
* `recv writeErr`: the `select` takes `<-ws.out`; `writeErr` is the result of `WriteJSON`.
* `stop writeErr`: `Stop` is called. -/
def writePumpStep (s : PumpState) (ev : Sched) : PumpState :=
  match ev with
  | .send v =>
    if s.ws.out.closed = false ∧ s.ws.out.buf.length < s.ws.out.cap then
      { s with ws := { s.ws with out := { s.ws.out with buf := s.ws.out.buf ++ [v] } } }
    else s
  | .tick =>
    if s.status ≠ .running then s
    else if s.ws.out.closed then { s with status := .panicked }
    else if s.ws.out.buf.length < s.ws.out.cap then
      { s with ws := { s.ws with out := { s.ws.out with buf := s.ws.out.buf ++ [IDer.ping NewPing] } } }
    else { s with status := .blockedOnSend }
  | .recv writeErr =>
    if s.status ≠ .running then s
    else
      match s.ws.out.buf with
      | [] => if s.ws.out.closed then { s with status := .returned } else s
      | v :: rest =>
        let messageId := (s.messageId + 1) % 2 ^ 64
        let v' := v.SetId messageId
        let ws' := { s.ws with out := { s.ws.out with buf := rest } }
        match writeErr with
        | some _ => { ws := ws', messageId := messageId, status := .returned }
        | none =>
          { ws := { ws' with conn := { ws'.conn with sent := ws'.conn.sent ++ [Frame.json v'] } }
            messageId := messageId
            status := .running }
  | .stop writeErr =>
    let ws' := (s.ws.Stop writeErr).1
    { s with
      ws := ws'
      status := if s.status = .blockedOnSend ∧ ws'.out.closed then .panicked else s.status }

/-- The goroutine `writePump` on the session `ws`, driven by a schedule: `messageId` starts
at 0 and the loop is entered. The loop ends when the receive from `ws.out` reports that
channel closed and drained, or when a write fails; the channel `ws.in` is never read here
(the comment above the function in the source names the in channel, the code the out one). -/
def writePump (ws : WebSocket) (schedule : List Sched) : PumpState :=
  schedule.foldl writePumpStep { ws := ws, messageId := 0, status := .running }

/-- The identifiers the pump gives to the values `vs` taken one after the other when its
counter stands at `messageId`. -/
def stamp (messageId : Nat) : List IDer → List IDer
  | [] => []
  | v :: vs => v.SetId ((messageId + 1) % 2 ^ 64) :: stamp ((messageId + 1) % 2 ^ 64) vs

/-- The values written with `WriteJSON`, in the order they reached the transport. -/
def Conn.written (c : Conn) : List IDer :=
  c.sent.filterMap (fun f => match f with | .json v => some v | .close _ _ => none)

/-- The values that entered `ws.out` along a schedule, in the order they entered. -/
def enqueued : PumpState → List Sched → List IDer
  | _, [] => []
  | s, .send v :: rest =>
    if s.ws.out.closed = false ∧ s.ws.out.buf.length < s.ws.out.cap then
      v :: enqueued (writePumpStep s (.send v)) rest
    else enqueued (writePumpStep s (.send v)) rest
  | s, .tick :: rest =>
    if s.status = .running ∧ s.ws.out.closed = false ∧ s.ws.out.buf.length < s.ws.out.cap then
      .ping NewPing :: enqueued (writePumpStep s .tick) rest
    else enqueued (writePumpStep s .tick) rest
  | s, ev :: rest => enqueued (writePumpStep s ev) rest

/-- No `WriteJSON` of the schedule fails. -/
def Sched.writeOk : Sched → Bool
  | .recv (some _) => false
  | _ => true

/-- A schedule of `n` rounds, each enqueueing one ping and letting the pump take it. -/
def pingRounds : Nat → List Sched
  | 0 => []
  | n + 1 => .send (.ping NewPing) :: .recv none :: pingRounds n

/-! ## `slack/bot.go` -/

/-- A compiled `*regexp.Regexp`: its source text and what `FindStringSubmatch` returns on a
string (the empty list for Go's nil slice, that is, no match). -/
structure Regexp where
  expr : String
  FindStringSubmatch : String → List String

structure Command (H : Type) where
  Pattern : Regexp
  Handler : H

structure Bot (H : Type) where
  UserId : String
  DisplayName : String
  commands : List (Command H)
  ws : WebSocket

def TestAuthUrl (token : String) : String := "https://slack.com/api/auth.test?token=" ++ token

structure botInfo where
  Ok : Bool
  User : String
  UserId : String
  Error : String
  deriving DecidableEq, Repr

def botInfo.setMember (b : botInfo) (key : String) (v : JSON) : Except GoError botInfo :=
  if keyMatches key "ok" then (decodeBool "ok" v b.Ok).map (fun x => { b with Ok := x })
  else if keyMatches key "user" then (decodeString "user" v b.User).map (fun x => { b with User := x })
  else if keyMatches key "user_id" then
    (decodeString "user_id" v b.UserId).map (fun x => { b with UserId := x })
  else if keyMatches key "error" then
    (decodeString "error" v b.Error).map (fun x => { b with Error := x })
  else .ok b

def getBotInfo (w : World) (token : String) : Except GoError botInfo :=
  match w.httpGet (TestAuthUrl token) with
  | .error err => .error err
  | .ok res =>
    match decoderDecode botInfo.setMember "botInfo" res.Body
        { Ok := false, User := "", UserId := "", Error := "" } with
    | .error err => .error err
    | .ok info => .ok info

def NewBot {H : Type} (w : World) (token : String) : Except GoError (Bot H) :=
  match NewWebSocket w token with
  | .error err => .error err
  | .ok ws =>
    match getBotInfo w token with
    | .error err => .error err
    | .ok botInfo =>
      .ok { UserId := botInfo.UserId, DisplayName := botInfo.User, commands := [], ws := ws }

def NewCommand {H : Type} (compile : String → Except GoError Regexp) (pattern : String)
    (handler : H) : Except GoError (Command H) :=
  match compile pattern with
  | .error err => .error err
  | .ok regx => .ok { Pattern := regx, Handler := handler }

def Command.Matches {H : Type} (c : Command H) (m : IncomingMessage) : List String :=
  c.Pattern.FindStringSubmatch m.Text

/-- The method `Command` of `Bot`; `compile` is `regexp.Compile`, and `.error err` stands
for `panic(err)`. -/
def Bot.Command {H : Type} (compile : String → Except GoError Regexp) (b : Bot H)
    (pattern : String) (handler : H) : Except GoError (Bot H) :=
  match NewCommand compile pattern handler with
  | .error err => .error err
  | .ok cmd => .ok { b with commands := b.commands ++ [cmd] }

/-- Registration of a list of commands, one `Command` call after the other. -/
def Bot.CommandAll {H : Type} (compile : String → Except GoError Regexp) :
    Bot H → List (String × H) → Except GoError (Bot H)
  | b, [] => .ok b
  | b, (pattern, handler) :: rest =>
    match b.Command compile pattern handler with
    | .error err => .error err
    | .ok b' => Bot.CommandAll compile b' rest

/-- The function `strings.Contains`. -/
def stringsContains (s substr : String) : Bool :=
  s.data.tails.any (fun t => substr.data.isPrefixOf t)

/-- One `go cmd.Handler(b, m, matches)` statement: the handler and its three arguments. -/
structure Spawn (H : Type) where
  Handler : H
  bot : Bot H
  message : IncomingMessage
  matches_ : List String

/-- The `for _, cmd := range b.commands` loop of `dispatch`: the goroutines it starts, in
the order of the `go` statements. -/
def dispatchLoop {H : Type} (b : Bot H) (m : IncomingMessage) : List (Command H) → List (Spawn H)
  | [] => []
  | cmd :: rest =>
    let matches_ := cmd.Matches m
    if matches_.length = 0 then dispatchLoop b m rest
    else { Handler := cmd.Handler, bot := b, message := m, matches_ := matches_ } ::
      dispatchLoop b m rest

def Bot.dispatch {H : Type} (b : Bot H) (m : IncomingMessage) : List (Spawn H) :=
  let userId := "<@" ++ b.UserId ++ ">"
  if !stringsContains m.Text userId then []
  else dispatchLoop b m b.commands

/-- A stand-in for `regexp.Compile` that knows literal patterns only: the pattern matches
where it occurs as a substring, the empty pattern is rejected. -/
def literalCompile (pattern : String) : Except GoError Regexp :=
  if pattern = "" then .error (.regexpCompile pattern)
  else .ok { expr := pattern
             FindStringSubmatch := fun text => if stringsContains text pattern then [pattern] else [] }

/-- The compiled form of the literal pattern `stock`. -/
def stockRegexp : Regexp :=
  { expr := "stock"
    FindStringSubmatch := fun text => if stringsContains text "stock" then ["stock"] else [] }

/-- The compiled form of the literal pattern `answer`. -/
def answerRegexp : Regexp :=
  { expr := "answer"
    FindStringSubmatch := fun text => if stringsContains text "answer" then ["answer"] else [] }

/-! ## Reading a payload field by name -/

/-- The last member of an object that names the field `name` and holds a string. -/
def lastString? (name : String) : List (String × JSON) → Option String
  | [] => none
  | (k, v) :: ms =>
    match lastString? name ms with
    | some s => some s
    | none =>
      if keyMatches k name then
        match v with
        | .str s => some s
        | _ => none
      else none

/-- The string a payload gives for the field `name`; empty when it gives none. -/
def Payload.stringField (data : Payload) (name : String) : String :=
  match data.doc with
  | some (.obj ms) => (lastString? name ms).getD ""
  | _ => ""

/-- The value one member `(k, v)` leaves in the string field `name` that held `cur`. -/
def pick (k name : String) (v : JSON) (cur : String) : String :=
  if keyMatches k name then (match v with | .str t => t | _ => cur) else cur

/-- A run of `Stop` calls one after the other, `errs` giving what the close-frame write
answers in each: the session afterwards, how each call ended, and all actions performed. -/
def StopAll : WebSocket → List (Option GoError) → WebSocket × List Outcome × List Effect
  | ws, [] => (ws, [], [])
  | ws, err :: rest =>
    let r := ws.Stop err
    let r' := StopAll r.1 rest
    (r'.1, r.2.1 :: r'.2.1, r.2.2 ++ r'.2.2)

/-- A session that has not been stopped has both channels open. -/
def WebSocket.openUntilStopped (ws : WebSocket) : Prop :=
  ws.isStopped = false → ws.out.closed = false ∧ ws.in_.closed = false

/-! ## Sample inputs -/

/-- The frame `{"type":"pong","reply_to":5}`. -/
def pongFrame : Payload :=
  { raw := "\x7b\"type\":\"pong\",\"reply_to\":5\x7d"
    doc := some (.obj [("type", .str "pong"), ("reply_to", .num (.int false 5))]) }

/-- The frame `{"ok":true,"reply_to":1,"ts":"1.5","text":"hi"}`. -/
def ackFrame : Payload :=
  { raw := "\x7b\"ok\":true,\"reply_to\":1,\"ts\":\"1.5\",\"text\":\"hi\"\x7d"
    doc := some (.obj [("ok", .bool true), ("reply_to", .num (.int false 1)),
      ("ts", .str "1.5"), ("text", .str "hi")]) }

/-- The frame `{"type":"message","user":"U1","channel":"C1","text":"hi","ts":"2.5","reply_to":7}`. -/
def messageFrame : Payload :=
  { raw := "\x7b\"type\":\"message\",\"user\":\"U1\",\"channel\":\"C1\",\"text\":\"hi\",\"ts\":\"2.5\",\"reply_to\":7\x7d"
    doc := some (.obj [("type", .str "message"), ("user", .str "U1"), ("channel", .str "C1"),
      ("text", .str "hi"), ("ts", .str "2.5"), ("reply_to", .num (.int false 7))]) }

/-- The frame `{"type":"reply","reply_to":5}`. -/
def replyTypedFrame : Payload :=
  { raw := "\x7b\"type\":\"reply\",\"reply_to\":5\x7d"
    doc := some (.obj [("type", .str "reply"), ("reply_to", .num (.int false 5))]) }

/-- The frame `{"hello":[1],"reply_to":0}`. -/
def helloFrame : Payload :=
  { raw := "\x7b\"hello\":[1],\"reply_to\":0\x7d"
    doc := some (.obj [("hello", .arr [.num (.int false 1)]), ("reply_to", .num (.int false 0))]) }

/-- A session as `NewWebSocket` builds it for the endpoint `wss://hub/1`. -/
def freshSession : WebSocket :=
  { in_ := { buf := [], cap := 256, closed := false }
    out := { buf := [], cap := 256, closed := false }
    conn := { url := "wss://hub/1", sent := [], closed := false }
    isStopped := false }

/-- A world in which the connect handshake and the dial succeed and the identity check
answers with status 429 and the body `{"ok":false,"error":"ratelimited"}`. -/
def rateLimitedWorld : World :=
  { httpGet := fun url =>
      if url = HandshakeUrl "xoxb-1" then
        .ok { StatusCode := 200
              Body := { raw := "\x7b\"ok\":true,\"url\":\"wss://hub/1\"\x7d"
                        first := some (.obj [("ok", .bool true), ("url", .str "wss://hub/1")]) } }
      else
        .ok { StatusCode := 429
              Body := { raw := "\x7b\"ok\":false,\"error\":\"ratelimited\"\x7d"
                        first := some (.obj [("ok", .bool false), ("error", .str "ratelimited")]) } }
    dial := fun _ => none }

/-- The bot `U123` with the two commands `echo` and `hi`, by handler names. -/
def sampleBot : Bot String :=
  { UserId := "U123", DisplayName := "wager", ws := freshSession
    commands := [
      { Pattern := { expr := "echo"
                     FindStringSubmatch := fun t => if stringsContains t "echo" then ["echo"] else [] }
        Handler := "echoHandler" },
      { Pattern := { expr := "bye"
                     FindStringSubmatch := fun t => if stringsContains t "bye" then ["bye"] else [] }
        Handler := "byeHandler" },
      { Pattern := { expr := "hi"
                     FindStringSubmatch := fun t => if stringsContains t "hi" then ["hi"] else [] }
        Handler := "hiHandler" }] }

end Slack

namespace Slack

/-! ## Frame classification -/

theorem objectInto_saved {S : Type} (set : S → String → JSON → Except GoError S)
    (ms : List (String × JSON)) (s : S) (e : GoError) (r : S) :
    objectInto set ms s (some e) ≠ .ok r := by
  induction ms generalizing s e with
  | nil => simp [objectInto]
  | cons kv ms ih =>
    obtain ⟨k, v⟩ := kv
    simp only [objectInto]
    cases set s k v with
    | ok s' => exact ih s' e
    | error e' => exact ih s _

theorem objectInto_cons_ok {S : Type} (set : S → String → JSON → Except GoError S)
    (k : String) (v : JSON) (ms : List (String × JSON)) (s r : S) (saved : Option GoError)
    (h : objectInto set ((k, v) :: ms) s saved = .ok r) :
    ∃ s', set s k v = .ok s' ∧ objectInto set ms s' saved = .ok r := by
  simp only [objectInto] at h
  cases hs : set s k v with
  | ok s' => rw [hs] at h; exact ⟨s', rfl, h⟩
  | error e => rw [hs] at h; exact absurd h (objectInto_saved set ms s _ r)

theorem keyMatches_eq {k a : String} (h : keyMatches k a = true) : foldName k = foldName a := by
  simpa [keyMatches] using h

theorem keyMatches_excl {k a b : String} (hab : foldName a ≠ foldName b)
    (h : keyMatches k a = true) : keyMatches k b = false := by
  cases hb : keyMatches k b with
  | false => rfl
  | true => exact absurd ((keyMatches_eq h).symm.trans (keyMatches_eq hb)) hab

theorem decodeString_ok {f : String} {v : JSON} {cur s : String}
    (h : decodeString f v cur = .ok s) :
    s = (match v with | .str t => t | _ => cur) := by
  cases v <;> simp [decodeString] at h ⊢ <;> exact h.symm

theorem foldName_ne_user_channel : foldName "user" ≠ foldName "channel" := by decide
theorem foldName_ne_user_text : foldName "user" ≠ foldName "text" := by decide
theorem foldName_ne_user_ts : foldName "user" ≠ foldName "ts" := by decide
theorem foldName_ne_channel_text : foldName "channel" ≠ foldName "text" := by decide
theorem foldName_ne_channel_ts : foldName "channel" ≠ foldName "ts" := by decide
theorem foldName_ne_text_ts : foldName "text" ≠ foldName "ts" := by decide

theorem IncomingMessage.setMember_ok {m s : IncomingMessage} {k : String} {v : JSON}
    (h : IncomingMessage.setMember m k v = .ok s) :
    s.User = pick k "user" v m.User ∧ s.Channel = pick k "channel" v m.Channel ∧
    s.Text = pick k "text" v m.Text ∧ s.Timestamp = pick k "ts" v m.Timestamp := by
  unfold IncomingMessage.setMember at h
  by_cases h1 : keyMatches k "user" = true
  · have h2 := keyMatches_excl foldName_ne_user_channel h1
    have h3 := keyMatches_excl foldName_ne_user_text h1
    have h4 := keyMatches_excl foldName_ne_user_ts h1
    cases v <;> simp [h1, decodeString, Except.map] at h <;> subst h <;> simp [pick, h1, h2, h3, h4]
  · by_cases h2 : keyMatches k "channel" = true
    · have h3 := keyMatches_excl foldName_ne_channel_text h2
      have h4 := keyMatches_excl foldName_ne_channel_ts h2
      cases v <;> simp [h1, h2, decodeString, Except.map] at h <;> subst h <;>
        simp [pick, h1, h2, h3, h4]
    · by_cases h3 : keyMatches k "text" = true
      · have h4 := keyMatches_excl foldName_ne_text_ts h3
        cases v <;> simp [h1, h2, h3, decodeString, Except.map] at h <;> subst h <;>
          simp [pick, h1, h2, h3, h4]
      · by_cases h4 : keyMatches k "ts" = true
        · cases v <;> simp [h1, h2, h3, h4, decodeString, Except.map] at h <;> subst h <;>
            simp [pick, h1, h2, h3, h4]
        · simp [h1, h2, h3, h4] at h
          subst h
          simp [pick, h1, h2, h3, h4]

theorem lastString?_cons_getD (name k : String) (v : JSON) (ms : List (String × JSON))
    (cur : String) :
    (lastString? name ((k, v) :: ms)).getD cur = (lastString? name ms).getD (pick k name v cur) := by
  simp only [lastString?]
  cases lastString? name ms with
  | some s => simp
  | none =>
    by_cases hk : keyMatches k name = true
    · cases v <;> simp [pick, hk]
    · simp [pick, hk]

theorem objectInto_incoming {ms : List (String × JSON)} {m0 m : IncomingMessage}
    {saved : Option GoError} (h : objectInto IncomingMessage.setMember ms m0 saved = .ok m) :
    m.User = (lastString? "user" ms).getD m0.User ∧
    m.Channel = (lastString? "channel" ms).getD m0.Channel ∧
    m.Text = (lastString? "text" ms).getD m0.Text ∧
    m.Timestamp = (lastString? "ts" ms).getD m0.Timestamp := by
  induction ms generalizing m0 with
  | nil =>
    cases saved <;> simp [objectInto] at h
    subst h
    simp [lastString?]
  | cons kv ms ih =>
    obtain ⟨k, v⟩ := kv
    obtain ⟨s', hset, hrest⟩ := objectInto_cons_ok _ k v ms m0 m saved h
    obtain ⟨a1, a2, a3, a4⟩ := IncomingMessage.setMember_ok hset
    obtain ⟨b1, b2, b3, b4⟩ := ih hrest
    simp only [lastString?_cons_getD]
    rw [← a1, ← a2, ← a3, ← a4]
    exact ⟨b1, b2, b3, b4⟩

/-- C3. A payload that decodes without error and whose `type` field is `"message"` is
returned as an `IncomingMessage` whose user, channel, text and timestamp are the payload's
`user`, `channel`, `text` and `ts` fields; nothing is asked of `reply_to`. -/
theorem unmarshalEvent_message (data : Payload) (event : EventType) (m : IncomingMessage)
    (hevent : jsonUnmarshal EventType.setMember "EventType" data { Type_ := "", ReplyTo := 0 }
      = .ok event)
    (htype : event.Type_ = "message")
    (hdec : jsonUnmarshal IncomingMessage.setMember "IncomingMessage" data
      { User := "", Channel := "", Text := "", Timestamp := "" } = .ok m) :
    unmarshalEvent data = .ok (.incoming m) ∧
    m.User = data.stringField "user" ∧ m.Channel = data.stringField "channel" ∧
    m.Text = data.stringField "text" ∧ m.Timestamp = data.stringField "ts" := by
  refine ⟨?_, ?_⟩
  · simp [unmarshalEvent, hevent, hdec, EventType.GetType, htype, Except.map]
  · unfold jsonUnmarshal unmarshal at hdec hevent
    unfold Payload.stringField
    cases hdoc : data.doc with
    | none => simp [hdoc] at hdec
    | some j =>
      cases j with
      | obj ms =>
        simp only [hdoc] at hdec
        have hobj : objectInto IncomingMessage.setMember ms
            { User := "", Channel := "", Text := "", Timestamp := "" } none = .ok m := by
          cases hr : objectInto IncomingMessage.setMember ms
            { User := "", Channel := "", Text := "", Timestamp := "" } none with
          | ok r => rw [hr] at hdec; simpa using hdec
          | error e => rw [hr] at hdec; simp at hdec
        simpa using objectInto_incoming hobj
      | null =>
        simp [hdoc] at hevent
        subst hevent
        simp at htype
      | bool b => simp [hdoc] at hdec
      | num n => simp [hdoc] at hdec
      | str t => simp [hdoc] at hdec
      | arr xs => simp [hdoc] at hdec

theorem unmarshalEvent_message_witness :
    unmarshalEvent messageFrame = .ok (.incoming
      { User := "U1", Channel := "C1", Text := "hi", Timestamp := "2.5" }) ∧
    "U1" = messageFrame.stringField "user" ∧ "C1" = messageFrame.stringField "channel" ∧
    "hi" = messageFrame.stringField "text" ∧ "2.5" = messageFrame.stringField "ts" :=
  unmarshalEvent_message messageFrame { Type_ := "message", ReplyTo := 7 }
    { User := "U1", Channel := "C1", Text := "hi", Timestamp := "2.5" } rfl rfl rfl

/-- C4. A payload that decodes without error, with an empty or absent `type` field and a
`reply_to` field that is absent, zero or negative, is returned as the raw string holding
exactly the input bytes. -/
theorem unmarshalEvent_raw (data : Payload) (event : EventType)
    (hevent : jsonUnmarshal EventType.setMember "EventType" data { Type_ := "", ReplyTo := 0 }
      = .ok event)
    (htype : event.Type_ = "") (hreply : event.ReplyTo ≤ 0) :
    unmarshalEvent data = .ok (.raw data.raw) := by
  have hnot : ¬ (event.ReplyTo > 0) := by omega
  simp [unmarshalEvent, hevent, EventType.GetType, htype, hnot]

theorem unmarshalEvent_raw_witness :
    unmarshalEvent helloFrame = .ok (.raw "\x7b\"hello\":[1],\"reply_to\":0\x7d") :=
  unmarshalEvent_raw helloFrame { Type_ := "", ReplyTo := 0 } rfl rfl (by decide)

theorem foldName_ne_reply_to_type : foldName "reply_to" ≠ foldName "type" := by decide
theorem foldName_ne_reply_to_ok : foldName "reply_to" ≠ foldName "ok" := by decide

/-- One member decoded into both structs keeps their `reply_to` values equal. -/
theorem setMember_ReplyTo {e e1 : EventType} {r r1 : OutgoingMessageReply} {k : String}
    {v : JSON} (he : EventType.setMember e k v = .ok e1)
    (hr : OutgoingMessageReply.setMember r k v = .ok r1)
    (h : (r.ReplyTo : Int) = e.ReplyTo) : (r1.ReplyTo : Int) = e1.ReplyTo := by
  unfold EventType.setMember at he
  unfold OutgoingMessageReply.setMember at hr
  by_cases h1 : keyMatches k "reply_to" = true
  · have h2 := keyMatches_excl foldName_ne_reply_to_type h1
    have h3 := keyMatches_excl foldName_ne_reply_to_ok h1
    simp only [h1, h2, h3, if_true, Bool.false_eq_true, if_false] at he hr
    cases v with
    | num n =>
      cases n with
      | int neg mag =>
        simp only [decodeInt64, decodeUint64] at he hr
        by_cases hu : neg = false ∧ mag < 2 ^ 64
        · obtain ⟨hneg, hmag⟩ := hu
          subst hneg
          rw [if_pos ⟨rfl, hmag⟩] at hr
          simp only [Bool.false_eq_true, if_false] at he
          by_cases hi : -(2 ^ 63 : Int) ≤ (mag : Int) ∧ (mag : Int) < 2 ^ 63
          · rw [if_pos hi] at he
            simp only [Except.map, Except.ok.injEq] at he hr
            subst he
            subst hr
            rfl
          · rw [if_neg hi] at he
            simp only [Except.map] at he
            cases he
        · rw [if_neg hu] at hr
          simp only [Except.map] at hr
          cases hr
      | other => simp [decodeInt64, Except.map] at he
    | null =>
      simp only [decodeInt64, decodeUint64, Except.map, Except.ok.injEq] at he hr
      subst he
      subst hr
      exact h
    | bool b => simp [decodeInt64, Except.map] at he
    | str s => simp [decodeInt64, Except.map] at he
    | arr xs => simp [decodeInt64, Except.map] at he
    | obj ms => simp [decodeInt64, Except.map] at he
  · have h1' : keyMatches k "reply_to" = false := by simpa using h1
    have e1eq : e1.ReplyTo = e.ReplyTo := by
      simp only [h1', Bool.false_eq_true, if_false] at he
      split at he
      · cases hd : decodeString "type" v e.Type_ with
        | ok s => rw [hd] at he; simp only [Except.map, Except.ok.injEq] at he; subst he; rfl
        | error x => rw [hd] at he; simp [Except.map] at he
      · simp only [Except.ok.injEq] at he; subst he; rfl
    have r1eq : r1.ReplyTo = r.ReplyTo := by
      simp only [h1', Bool.false_eq_true, if_false] at hr
      split at hr
      · cases hd : decodeBool "ok" v r.Ok with
        | ok s => rw [hd] at hr; simp only [Except.map, Except.ok.injEq] at hr; subst hr; rfl
        | error x => rw [hd] at hr; simp [Except.map] at hr
      · split at hr
        · cases hd : decodeString "ts" v r.Timestamp with
          | ok s => rw [hd] at hr; simp only [Except.map, Except.ok.injEq] at hr; subst hr; rfl
          | error x => rw [hd] at hr; simp [Except.map] at hr
        · split at hr
          · cases hd : decodeString "text" v r.Text with
            | ok s => rw [hd] at hr; simp only [Except.map, Except.ok.injEq] at hr; subst hr; rfl
            | error x => rw [hd] at hr; simp [Except.map] at hr
          · split at hr
            · cases hd : decodeErrorPtr "error" v r.Error with
              | ok s => rw [hd] at hr; simp only [Except.map, Except.ok.injEq] at hr; subst hr; rfl
              | error x => rw [hd] at hr; simp [Except.map] at hr
            · simp only [Except.ok.injEq] at hr; subst hr; rfl
    rw [e1eq, r1eq]
    exact h

theorem objectInto_ReplyTo {ms : List (String × JSON)} {e0 e : EventType}
    {r0 r : OutgoingMessageReply} {se sr : Option GoError}
    (he : objectInto EventType.setMember ms e0 se = .ok e)
    (hr : objectInto OutgoingMessageReply.setMember ms r0 sr = .ok r)
    (h : (r0.ReplyTo : Int) = e0.ReplyTo) : (r.ReplyTo : Int) = e.ReplyTo := by
  induction ms generalizing e0 r0 with
  | nil =>
    cases se <;> cases sr <;> simp [objectInto] at he hr
    subst he
    subst hr
    exact h
  | cons kv ms ih =>
    obtain ⟨k, v⟩ := kv
    obtain ⟨e1, he1, herest⟩ := objectInto_cons_ok _ k v ms e0 e se he
    obtain ⟨r1, hr1, hrrest⟩ := objectInto_cons_ok _ k v ms r0 r sr hr
    exact ih herest hrrest (setMember_ReplyTo he1 hr1 h)

theorem unmarshal_ReplyTo {data : Payload} {e : EventType} {r : OutgoingMessageReply}
    (he : jsonUnmarshal EventType.setMember "EventType" data { Type_ := "", ReplyTo := 0 }
      = .ok e)
    (hr : jsonUnmarshal OutgoingMessageReply.setMember "OutgoingMessageReply" data
      { Ok := false, ReplyTo := 0, Timestamp := "", Text := "", Error := none } = .ok r) :
    (r.ReplyTo : Int) = e.ReplyTo := by
  unfold jsonUnmarshal unmarshal at he hr
  cases hdoc : data.doc with
  | none => simp [hdoc] at he
  | some j =>
    cases j with
    | obj ms =>
      simp only [hdoc] at he hr
      have he' : objectInto EventType.setMember ms { Type_ := "", ReplyTo := 0 } none = .ok e := by
        cases hx : objectInto EventType.setMember ms { Type_ := "", ReplyTo := 0 } none with
        | ok x => rw [hx] at he; simpa using he
        | error x => rw [hx] at he; simp at he
      have hr' : objectInto OutgoingMessageReply.setMember ms
          { Ok := false, ReplyTo := 0, Timestamp := "", Text := "", Error := none } none
          = .ok r := by
        cases hx : objectInto OutgoingMessageReply.setMember ms
          { Ok := false, ReplyTo := 0, Timestamp := "", Text := "", Error := none } none with
        | ok x => rw [hx] at hr; simpa using hr
        | error x => rw [hx] at hr; simp at hr
      exact objectInto_ReplyTo he' hr' rfl
    | null =>
      simp [hdoc] at he hr
      subst he
      subst hr
      rfl
    | bool b => simp [hdoc] at he
    | num n => simp [hdoc] at he
    | str t => simp [hdoc] at he
    | arr xs => simp [hdoc] at he

/-- C2, as the code has it. Take a payload that decodes without error, whose `type` field
is not `"message"` and whose `reply_to` field is positive. When the `type` field is absent,
empty or the literal `"reply"`, the payload is returned as an `OutgoingMessageReply`, and
the identifier it replies to is that `reply_to`. When the `type` field holds anything else,
such as `"pong"`, the payload is returned as the raw string of its bytes. -/
theorem unmarshalEvent_reply (data : Payload) (event : EventType)
    (hevent : jsonUnmarshal EventType.setMember "EventType" data { Type_ := "", ReplyTo := 0 }
      = .ok event)
    (hne : event.Type_ ≠ "message") (hreply : 0 < event.ReplyTo) :
    ((event.Type_ = "" ∨ event.Type_ = "reply") →
      ∀ r, jsonUnmarshal OutgoingMessageReply.setMember "OutgoingMessageReply" data
          { Ok := false, ReplyTo := 0, Timestamp := "", Text := "", Error := none } = .ok r →
        unmarshalEvent data = .ok (.reply r) ∧ (r.ReplyTo : Int) = event.ReplyTo) ∧
    (event.Type_ ≠ "" → event.Type_ ≠ "reply" → unmarshalEvent data = .ok (.raw data.raw)) := by
  constructor
  · intro htype r hdec
    refine ⟨?_, unmarshal_ReplyTo hevent hdec⟩
    rcases htype with htype | htype
    · simp [unmarshalEvent, hevent, hdec, EventType.GetType, htype, hreply, Except.map]
    · simp [unmarshalEvent, hevent, hdec, EventType.GetType, htype, Except.map]
  · intro h1 h2
    simp [unmarshalEvent, hevent, EventType.GetType, h1, h2, hne]

theorem unmarshalEvent_reply_witness :
    (unmarshalEvent ackFrame = .ok (.reply
        { Ok := true, ReplyTo := 1, Timestamp := "1.5", Text := "hi", Error := none }) ∧
      ((1 : Nat) : Int) = 1) ∧
    (unmarshalEvent replyTypedFrame = .ok (.reply
        { Ok := false, ReplyTo := 5, Timestamp := "", Text := "", Error := none }) ∧
      ((5 : Nat) : Int) = 5) ∧
    unmarshalEvent pongFrame = .ok (.raw pongFrame.raw) :=
  ⟨(unmarshalEvent_reply ackFrame { Type_ := "", ReplyTo := 1 } rfl (by decide) (by decide)).1
      (Or.inl rfl)
      { Ok := true, ReplyTo := 1, Timestamp := "1.5", Text := "hi", Error := none } rfl,
   (unmarshalEvent_reply replyTypedFrame { Type_ := "reply", ReplyTo := 5 } rfl (by decide)
      (by decide)).1 (Or.inr rfl)
      { Ok := false, ReplyTo := 5, Timestamp := "", Text := "", Error := none } rfl,
   (unmarshalEvent_reply pongFrame { Type_ := "pong", ReplyTo := 5 } rfl (by decide)
      (by decide)).2 (by decide) (by decide)⟩

/-- C2 fails as stated. The frame `{"type":"pong","reply_to":5}` decodes without error both
as an `EventType` and as an `OutgoingMessageReply`, its type is not `"message"` and its
`reply_to` is positive, yet `unmarshalEvent` returns it as the raw string. -/
theorem unmarshalEvent_pong_not_reply :
    jsonUnmarshal EventType.setMember "EventType" pongFrame { Type_ := "", ReplyTo := 0 }
      = .ok { Type_ := "pong", ReplyTo := 5 } ∧
    jsonUnmarshal OutgoingMessageReply.setMember "OutgoingMessageReply" pongFrame
      { Ok := false, ReplyTo := 0, Timestamp := "", Text := "", Error := none }
      = .ok { Ok := false, ReplyTo := 5, Timestamp := "", Text := "", Error := none } ∧
    unmarshalEvent pongFrame = .ok (.raw "\x7b\"type\":\"pong\",\"reply_to\":5\x7d") ∧
    ∀ r, unmarshalEvent pongFrame ≠ .ok (.reply r) := by
  refine ⟨rfl, rfl, rfl, ?_⟩
  intro r h
  have h2 : unmarshalEvent pongFrame = .ok (.raw "\x7b\"type\":\"pong\",\"reply_to\":5\x7d") := rfl
  rw [h2] at h
  cases h

end Slack

namespace Slack

/-! ## Dispatch -/

theorem stringsContains_iff (s substr : String) :
    stringsContains s substr = true ↔ substr.data <:+: s.data := by
  simp only [stringsContains, List.any_eq_true, List.mem_tails, List.isPrefixOf_iff_prefix]
  rw [List.infix_iff_prefix_suffix]
  constructor
  · rintro ⟨t, ht, hp⟩
    exact ⟨t, hp, ht⟩
  · rintro ⟨t, hp, ht⟩
    exact ⟨t, ht, hp⟩

theorem dispatchLoop_eq {H : Type} (b : Bot H) (m : IncomingMessage) (cmds : List (Command H)) :
    dispatchLoop b m cmds =
      (cmds.filter (fun c => !(c.Pattern.FindStringSubmatch m.Text).isEmpty)).map
        (fun c => { Handler := c.Handler, bot := b, message := m,
                    matches_ := c.Pattern.FindStringSubmatch m.Text }) := by
  induction cmds with
  | nil => rfl
  | cons c rest ih =>
    simp only [dispatchLoop, Command.Matches, List.filter_cons]
    cases hm : c.Pattern.FindStringSubmatch m.Text with
    | nil => simpa using ih
    | cons x xs => simp [ih, hm]

/-- C5. When the text of a message does not contain the mention token `<@UserId>` of the
bot, `dispatch` starts no handler, whatever commands are registered. -/
theorem dispatch_without_mention {H : Type} (b : Bot H) (m : IncomingMessage)
    (hno : ¬ ("<@" ++ b.UserId ++ ">").data <:+: m.Text.data) :
    b.dispatch m = [] := by
  have h : stringsContains m.Text ("<@" ++ b.UserId ++ ">") = false := by
    cases hc : stringsContains m.Text ("<@" ++ b.UserId ++ ">") with
    | false => rfl
    | true => exact absurd ((stringsContains_iff _ _).mp hc) hno
  simp [Bot.dispatch, h]

theorem dispatch_without_mention_witness :
    sampleBot.dispatch { User := "U9", Channel := "C1", Text := "hello there", Timestamp := "1" }
      = [] :=
  dispatch_without_mention sampleBot
    { User := "U9", Channel := "C1", Text := "hello there", Timestamp := "1" }
    (by rw [← stringsContains_iff]; decide)

/-- C6. When the text of a message contains the mention token of the bot, the handlers
`dispatch` starts are those of the registered commands whose pattern returns a non-empty
match list on the whole text: one each, in registration order, each with the bot, the
message as received and the match list of its own command. -/
theorem dispatch_with_mention {H : Type} (b : Bot H) (m : IncomingMessage)
    (hmention : ("<@" ++ b.UserId ++ ">").data <:+: m.Text.data) :
    b.dispatch m =
      (b.commands.filter (fun c => !(c.Pattern.FindStringSubmatch m.Text).isEmpty)).map
        (fun c => { Handler := c.Handler, bot := b, message := m,
                    matches_ := c.Pattern.FindStringSubmatch m.Text }) := by
  have h : stringsContains m.Text ("<@" ++ b.UserId ++ ">") = true :=
    (stringsContains_iff _ _).mpr hmention
  simp [Bot.dispatch, h, dispatchLoop_eq]

theorem dispatch_with_mention_witness :
    ("<@" ++ sampleBot.UserId ++ ">").data <:+: "<@U123> echo hi".data ∧
    (sampleBot.dispatch
      { User := "U9", Channel := "C1", Text := "<@U123> echo hi", Timestamp := "1" }).map
      (fun g => (g.Handler, g.message.Text, g.matches_))
      = [("echoHandler", "<@U123> echo hi", ["echo"]), ("hiHandler", "<@U123> echo hi", ["hi"])] := by
  have hmention : ("<@" ++ sampleBot.UserId ++ ">").data <:+: "<@U123> echo hi".data := by
    rw [← stringsContains_iff]; decide
  refine ⟨hmention, ?_⟩
  rw [dispatch_with_mention sampleBot
    { User := "U9", Channel := "C1", Text := "<@U123> echo hi", Timestamp := "1" } hmention]
  decide

end Slack

namespace Slack

/-! ## Command registration -/

theorem Bot.Command_ok {H : Type} (compile : String → Except GoError Regexp) (b : Bot H)
    (pattern : String) (regx : Regexp) (handler : H) (hvalid : compile pattern = .ok regx) :
    b.Command compile pattern handler =
      .ok { b with commands := b.commands ++ [{ Pattern := regx, Handler := handler }] } := by
  simp [Bot.Command, NewCommand, hvalid]

theorem Bot.CommandAll_ok {H : Type} (compile : String → Except GoError Regexp)
    (regs : List (String × Regexp × H)) (b : Bot H)
    (hall : ∀ t ∈ regs, compile t.1 = .ok t.2.1) :
    Bot.CommandAll compile b (regs.map (fun t => (t.1, t.2.2))) =
      .ok { b with commands :=
              b.commands ++ regs.map (fun t => { Pattern := t.2.1, Handler := t.2.2 }) } := by
  induction regs generalizing b with
  | nil => simp [Bot.CommandAll]
  | cons t rest ih =>
    have ht : compile t.1 = .ok t.2.1 := hall t (List.mem_cons_self _ _)
    have hrest : ∀ u ∈ rest, compile u.1 = .ok u.2.1 :=
      fun u hu => hall u (List.mem_cons_of_mem _ hu)
    simp only [List.map_cons, Bot.CommandAll, Bot.Command_ok compile b t.1 t.2.1 t.2.2 ht]
    rw [ih _ hrest]
    simp

/-- C7. For a pattern that compiles, `Command(pattern, handler)` leaves the command list
equal to the previous list with the one new command (the compiled pattern, the handler)
appended at its end; hence registering `p1 .. pn` in this order on a bot appends the
commands of `p1 .. pn` in this order, and that is the list `dispatch` walks. -/
theorem Bot.Command_appends {H : Type} (compile : String → Except GoError Regexp) (b : Bot H)
    (pattern : String) (regx : Regexp) (handler : H) (hvalid : compile pattern = .ok regx)
    (regs : List (String × Regexp × H)) (hall : ∀ t ∈ regs, compile t.1 = .ok t.2.1) :
    b.Command compile pattern handler =
      .ok { b with commands := b.commands ++ [{ Pattern := regx, Handler := handler }] } ∧
    Bot.CommandAll compile b (regs.map (fun t => (t.1, t.2.2))) =
      .ok { b with commands :=
              b.commands ++ regs.map (fun t => { Pattern := t.2.1, Handler := t.2.2 }) } :=
  ⟨Bot.Command_ok compile b pattern regx handler hvalid, Bot.CommandAll_ok compile regs b hall⟩

theorem Bot.Command_appends_witness :
    sampleBot.Command literalCompile "stock" "stockHandler" =
      .ok { sampleBot with commands :=
              sampleBot.commands ++ [{ Pattern := stockRegexp, Handler := "stockHandler" }] } ∧
    Bot.CommandAll literalCompile sampleBot
        ([("answer", answerRegexp, "answerHandler"), ("stock", stockRegexp, "stockHandler")].map
          (fun t => (t.1, t.2.2))) =
      .ok { sampleBot with commands :=
              sampleBot.commands ++
                [{ Pattern := answerRegexp, Handler := "answerHandler" },
                 { Pattern := stockRegexp, Handler := "stockHandler" }] } :=
  Bot.Command_appends literalCompile sampleBot "stock" stockRegexp "stockHandler" rfl
    [("answer", answerRegexp, "answerHandler"), ("stock", stockRegexp, "stockHandler")]
    (by
      intro t ht
      simp only [List.mem_cons, List.mem_singleton, List.not_mem_nil, or_false] at ht
      rcases ht with rfl | rfl <;> rfl)

end Slack

namespace Slack

/-! ## Shutdown -/

theorem Stop_of_stopped (ws : WebSocket) (err : Option GoError) (h : ws.isStopped = true) :
    ws.Stop err = (ws, .returned none, []) := by
  simp [WebSocket.Stop, h]

theorem Stop_isStopped (ws : WebSocket) (err : Option GoError) :
    (ws.Stop err).1.isStopped = true := by
  unfold WebSocket.Stop
  by_cases h : ws.isStopped = true
  · simp [h]
  · simp only [h]
    cases err <;> simp <;> split <;> (try split) <;> simp

theorem Stop_effects_count (ws : WebSocket) (err : Option GoError) :
    (ws.Stop err).2.2.count .closeOut ≤ 1 ∧ (ws.Stop err).2.2.count .closeIn ≤ 1 := by
  unfold WebSocket.Stop
  by_cases h : ws.isStopped = true
  · simp [h]
  · simp only [h]
    cases err <;> simp <;> split <;> (try split) <;> simp

theorem Stop_no_panic (ws : WebSocket) (err : Option GoError) (h : ws.openUntilStopped) :
    (ws.Stop err).2.1 ≠ .panicked := by
  unfold WebSocket.Stop
  by_cases hs : ws.isStopped = true
  · simp [hs]
  · have hs' : ws.isStopped = false := by simpa using hs
    obtain ⟨ho, hi⟩ := h hs'
    cases err <;> simp [hs', ho, hi]

theorem StopAll_of_stopped (ws : WebSocket) (errs : List (Option GoError))
    (h : ws.isStopped = true) :
    StopAll ws errs = (ws, errs.map (fun _ => .returned none), []) := by
  induction errs with
  | nil => rfl
  | cons e rest ih => simp [StopAll, Stop_of_stopped ws e h, ih]

/-- C8. `Stop` is idempotent: on a session on which `Stop` has run, a further call returns
no error, leaves the session as it is and performs no action (no channel closed, no close
frame written, transport untouched); hence over any run of `Stop` calls each of the two
channels is closed at most once, and on a session whose channels are open until it is
stopped no call panics. -/
theorem Stop_idempotent (ws : WebSocket) (err err' : Option GoError)
    (errs : List (Option GoError)) (hopen : ws.openUntilStopped) :
    (ws.Stop err).1.Stop err' = ((ws.Stop err).1, .returned none, []) ∧
    (StopAll ws errs).2.2.count .closeOut ≤ 1 ∧
    (StopAll ws errs).2.2.count .closeIn ≤ 1 ∧
    Outcome.panicked ∉ (StopAll ws errs).2.1 := by
  refine ⟨Stop_of_stopped _ _ (Stop_isStopped ws err), ?_⟩
  cases errs with
  | nil => simp [StopAll]
  | cons e rest =>
    have h1 := StopAll_of_stopped (ws.Stop e).1 rest (Stop_isStopped ws e)
    have h2 := Stop_effects_count ws e
    have h3 := Stop_no_panic ws e hopen
    simp only [StopAll, h1, List.append_nil]
    refine ⟨h2.1, h2.2, ?_⟩
    simp only [List.mem_cons, List.mem_map, not_or]
    refine ⟨fun h => h3 h.symm, ?_⟩
    rintro ⟨_, _, h⟩
    cases h

theorem Stop_idempotent_witness :
    (freshSession.Stop none).1.Stop (some (.transport "broken pipe")) =
      ((freshSession.Stop none).1, .returned none, []) ∧
    (StopAll freshSession [none, some (.transport "broken pipe"), none]).2.2.count .closeOut ≤ 1 ∧
    (StopAll freshSession [none, some (.transport "broken pipe"), none]).2.2.count .closeIn ≤ 1 ∧
    Outcome.panicked ∉ (StopAll freshSession [none, some (.transport "broken pipe"), none]).2.1 :=
  Stop_idempotent freshSession none (some (.transport "broken pipe"))
    [none, some (.transport "broken pipe"), none] (fun _ => ⟨rfl, rfl⟩)

/-- C10. On a session that is not stopped (both channels open), when the write of the close
frame fails with `e`, `Stop` returns exactly `e` and still performs the whole teardown: the
stopped flag is set and the outbound channel, the inbound channel and the transport are
closed, by the same actions and with the same flags and channels as when the write succeeds,
where `Stop` returns no error. -/
theorem Stop_close_frame_error (ws : WebSocket) (e : GoError)
    (hs : ws.isStopped = false) (ho : ws.out.closed = false) (hi : ws.in_.closed = false) :
    (ws.Stop (some e)).2.1 = .returned (some e) ∧
    (ws.Stop (some e)).1.isStopped = true ∧
    (ws.Stop (some e)).1.out.closed = true ∧
    (ws.Stop (some e)).1.in_.closed = true ∧
    (ws.Stop (some e)).1.conn.closed = true ∧
    (ws.Stop (some e)).2.2 = [.closeOut, .writeClose, .sleep, .closeIn, .connClose] ∧
    (ws.Stop none).2.1 = .returned none ∧
    (ws.Stop none).2.2 = (ws.Stop (some e)).2.2 ∧
    (ws.Stop none).1.isStopped = (ws.Stop (some e)).1.isStopped ∧
    (ws.Stop none).1.out = (ws.Stop (some e)).1.out ∧
    (ws.Stop none).1.in_ = (ws.Stop (some e)).1.in_ ∧
    (ws.Stop none).1.conn.closed = (ws.Stop (some e)).1.conn.closed := by
  simp [WebSocket.Stop, hs, ho, hi]

theorem Stop_close_frame_error_witness :
    (freshSession.Stop (some (.transport "broken pipe"))).2.1
      = .returned (some (.transport "broken pipe")) ∧
    (freshSession.Stop (some (.transport "broken pipe"))).1.isStopped = true ∧
    (freshSession.Stop (some (.transport "broken pipe"))).1.out.closed = true ∧
    (freshSession.Stop (some (.transport "broken pipe"))).1.in_.closed = true ∧
    (freshSession.Stop (some (.transport "broken pipe"))).1.conn.closed = true :=
  have h := Stop_close_frame_error freshSession (.transport "broken pipe") rfl rfl rfl
  ⟨h.1, h.2.1, h.2.2.1, h.2.2.2.1, h.2.2.2.2.1⟩

/-! ## Construction -/

theorem NewBot_handshake_error {H : Type} (w : World) (token : String) (err : GoError)
    (h : doConnectHandshake w token = .error err) :
    (NewBot w token : Except GoError (Bot H)) = .error err := by
  simp [NewBot, NewWebSocket, h]

theorem doConnectHandshake_status (w : World) (token : String) (res : HttpResponse)
    (hget : w.httpGet (HandshakeUrl token) = .ok res) (hstatus : res.StatusCode ≠ StatusOK) :
    doConnectHandshake w token = .error (errorFromResponse res) := by
  simp [doConnectHandshake, hget, hstatus]

theorem doConnectHandshake_network (w : World) (token : String) (err : GoError)
    (hget : w.httpGet (HandshakeUrl token) = .error err) :
    doConnectHandshake w token = .error err := by
  simp [doConnectHandshake, hget]

/-- C9 does not hold of the code. With a successful connect handshake and dial, an identity
check answered with status 429 and the body `{"ok":false,"error":"ratelimited"}` is not
treated as a failure: `getBotInfo` never looks at the status, and `NewBot` returns a bot
whose identity is empty. -/
theorem NewBot_ignores_identity_status :
    rateLimitedWorld.httpGet (TestAuthUrl "xoxb-1") =
      .ok { StatusCode := 429
            Body := { raw := "\x7b\"ok\":false,\"error\":\"ratelimited\"\x7d"
                      first := some (.obj [("ok", .bool false), ("error", .str "ratelimited")]) } } ∧
    (NewBot rateLimitedWorld "xoxb-1" : Except GoError (Bot Unit)) =
      .ok { UserId := "", DisplayName := "", commands := [], ws := freshSession } := by
  constructor <;> rfl

end Slack

namespace Slack

/-! ## The write pump -/

theorem IDer.Id_SetId (v : IDer) (n : Nat) : (v.SetId n).Id = n := by
  cases v <;> rfl

theorem Stop_written (ws : WebSocket) (err : Option GoError) :
    (ws.Stop err).1.conn.written = ws.conn.written ∧ (ws.Stop err).1.out.buf = ws.out.buf ∧
    (ws.Stop err).1.out.cap = ws.out.cap := by
  unfold WebSocket.Stop
  by_cases h : ws.isStopped = true
  · simp [h]
  · simp only [h]
    cases err <;> simp [Conn.written] <;> split <;> (try split) <;> simp [List.filterMap_append]

/-- What one step with a successful write does to the buffer, the wire and the counter. -/
theorem writePumpStep_cases (s : PumpState) (ev : Sched) (hok : ev.writeOk = true) :
    (∃ v rest, s.ws.out.buf = v :: rest ∧ (writePumpStep s ev).ws.out.buf = rest ∧
      (writePumpStep s ev).ws.conn.written
        = s.ws.conn.written ++ [v.SetId ((s.messageId + 1) % 2 ^ 64)] ∧
      (writePumpStep s ev).messageId = (s.messageId + 1) % 2 ^ 64 ∧
      ∀ tr, enqueued s (ev :: tr) = enqueued (writePumpStep s ev) tr) ∨
    (∃ v, (writePumpStep s ev).ws.out.buf = s.ws.out.buf ++ [v] ∧
      (writePumpStep s ev).ws.conn.written = s.ws.conn.written ∧
      (writePumpStep s ev).messageId = s.messageId ∧
      ∀ tr, enqueued s (ev :: tr) = v :: enqueued (writePumpStep s ev) tr) ∨
    ((writePumpStep s ev).ws.out.buf = s.ws.out.buf ∧
      (writePumpStep s ev).ws.conn.written = s.ws.conn.written ∧
      (writePumpStep s ev).messageId = s.messageId ∧
      ∀ tr, enqueued s (ev :: tr) = enqueued (writePumpStep s ev) tr) := by
  cases ev with
  | send v =>
    by_cases h : s.ws.out.closed = false ∧ s.ws.out.buf.length < s.ws.out.cap
    · right; left
      refine ⟨v, ?_⟩
      simp [writePumpStep, enqueued, h]
    · right; right
      simp [writePumpStep, enqueued, h]
  | tick =>
    by_cases hr : s.status = .running
    · by_cases hc : s.ws.out.closed = true
      · right; right
        simp [writePumpStep, enqueued, hr, hc]
      · by_cases hl : s.ws.out.buf.length < s.ws.out.cap
        · right; left
          refine ⟨.ping NewPing, ?_⟩
          simp [writePumpStep, enqueued, hr, hc, hl]
        · right; right
          simp [writePumpStep, enqueued, hr, hc, hl]
    · right; right
      simp [writePumpStep, enqueued, hr]
  | recv writeErr =>
    cases writeErr with
    | some e => simp [Sched.writeOk] at hok
    | none =>
      by_cases hr : s.status = .running
      · cases hb : s.ws.out.buf with
        | nil =>
          right; right
          by_cases hc : s.ws.out.closed = true <;> simp [writePumpStep, enqueued, hr, hb, hc]
        | cons v rest =>
          left
          refine ⟨v, rest, rfl, ?_⟩
          simp [writePumpStep, enqueued, hr, hb, Conn.written, List.filterMap_append]
      · right; right
        simp [writePumpStep, enqueued, hr]
  | stop writeErr =>
    right; right
    have h := Stop_written s.ws writeErr
    simp [writePumpStep, enqueued, h.1, h.2.1]

theorem stamp_length (m : Nat) (l : List IDer) : (stamp m l).length = l.length := by
  induction l generalizing m with
  | nil => rfl
  | cons v vs ih => simp [stamp, ih]

theorem stamp_getElem? (m : Nat) (l : List IDer) (k : Nat) :
    (stamp m l)[k]? = l[k]?.map (fun v => v.SetId ((m + k + 1) % 2 ^ 64)) := by
  induction l generalizing m k with
  | nil => simp [stamp]
  | cons v vs ih =>
    cases k with
    | zero => simp [stamp]
    | succ k =>
      simp only [stamp, List.getElem?_cons_succ, ih]
      congr 1
      funext w
      congr 1
      omega

/-- Along a schedule without write failure, the wire grows by a stamped prefix of what is
or comes into the channel, and the rest is what the channel still holds. -/
theorem foldl_writePumpStep_fifo (tr : List Sched) (s : PumpState)
    (hok : ∀ ev ∈ tr, ev.writeOk = true) :
    ∃ n, n ≤ (s.ws.out.buf ++ enqueued s tr).length ∧
      (tr.foldl writePumpStep s).ws.conn.written =
        s.ws.conn.written ++ stamp s.messageId ((s.ws.out.buf ++ enqueued s tr).take n) ∧
      (tr.foldl writePumpStep s).ws.out.buf = (s.ws.out.buf ++ enqueued s tr).drop n := by
  induction tr generalizing s with
  | nil => exact ⟨0, by simp, by simp [stamp, enqueued], by simp [enqueued]⟩
  | cons ev tr ih =>
    have hev : ev.writeOk = true := hok ev (List.mem_cons_self _ _)
    obtain ⟨n, hn, hw, hb⟩ := ih (writePumpStep s ev) (fun e he => hok e (List.mem_cons_of_mem _ he))
    simp only [List.foldl_cons]
    rcases writePumpStep_cases s ev hev with
      ⟨v, rest, h1, h2, h3, h4, h5⟩ | ⟨v, h2, h3, h4, h5⟩ | ⟨h2, h3, h4, h5⟩
    · refine ⟨n + 1, ?_, ?_, ?_⟩
      · rw [h1, h5 tr]; rw [h2] at hn; simpa using hn
      · rw [hw, h3, h4, h2, h1, h5 tr]
        simp [stamp]
      · rw [hb, h2, h1, h5 tr]
        simp
    · refine ⟨n, ?_, ?_, ?_⟩
      · rw [h5 tr]; rw [h2] at hn; simpa using hn
      · rw [hw, h3, h4, h2, h5 tr]
        simp
      · rw [hb, h2, h5 tr]
        simp
    · refine ⟨n, ?_, ?_, ?_⟩
      · rw [h5 tr]; rw [h2] at hn; exact hn
      · rw [hw, h3, h4, h2, h5 tr]
      · rw [hb, h2, h5 tr]

end Slack

namespace Slack

/-- The wire and the channel after a schedule without write failure, for a pump started on
a session with an empty outbound channel and nothing written yet. -/
theorem writePump_fifo (ws : WebSocket) (schedule : List Sched)
    (hbuf : ws.out.buf = []) (hsent : ws.conn.sent = [])
    (hok : ∀ ev ∈ schedule, ev.writeOk = true) :
    ∃ n, n ≤ (enqueued { ws := ws, messageId := 0, status := .running } schedule).length ∧
      (writePump ws schedule).ws.conn.written =
        stamp 0 ((enqueued { ws := ws, messageId := 0, status := .running } schedule).take n) ∧
      (writePump ws schedule).ws.out.buf =
        (enqueued { ws := ws, messageId := 0, status := .running } schedule).drop n := by
  obtain ⟨n, hn, hw, hb⟩ :=
    foldl_writePumpStep_fifo schedule { ws := ws, messageId := 0, status := .running } hok
  simp only [hbuf, List.nil_append] at hn hw hb
  refine ⟨n, hn, ?_, hb⟩
  rw [writePump, hw]
  simp [Conn.written, hsent]

theorem stamp_Id_getElem? (m : Nat) (l : List IDer) (k : Nat) (hk : k < l.length) :
    ((stamp m l)[k]?).map IDer.Id = some ((m + k + 1) % 2 ^ 64) := by
  rw [stamp_getElem?, List.getElem?_eq_getElem hk]
  simp [IDer.Id_SetId]

theorem pingRounds_writeOk (n : Nat) : ∀ ev ∈ pingRounds n, ev.writeOk = true := by
  induction n with
  | zero => simp [pingRounds]
  | succ n ih =>
    intro ev hev
    simp only [pingRounds, List.mem_cons] at hev
    rcases hev with rfl | rfl | hev
    · rfl
    · rfl
    · exact ih ev hev

theorem pingRounds_written (n : Nat) (s : PumpState) (hr : s.status = .running)
    (hc : s.ws.out.closed = false) (hb : s.ws.out.buf = []) (hcap : 0 < s.ws.out.cap) :
    ((pingRounds n).foldl writePumpStep s).ws.conn.written.length
      = s.ws.conn.written.length + n := by
  induction n generalizing s with
  | zero => rfl
  | succ n ih =>
    simp only [pingRounds, List.foldl_cons]
    rw [ih]
    · simp [writePumpStep, hr, hc, hb, hcap, Conn.written, List.filterMap_append]
      omega
    · simp [writePumpStep, hr, hc, hb, hcap]
    · simp [writePumpStep, hr, hc, hb, hcap]
    · simp [writePumpStep, hr, hc, hb, hcap]
    · simp [writePumpStep, hr, hc, hb, hcap]

/-- C1, for fewer than `2 ^ 64` messages. On a session with an empty outbound channel and
nothing written yet, along every schedule without write failure: the `k`-th value written
(counting from 1) is the `k`-th value that entered the channel, Say or Ping, carrying the
identifier `k mod 2 ^ 64` whatever identifier it held; what is not written is still in the
channel, in order; and while fewer than `2 ^ 64` values were written, the identifiers on
the wire are exactly `1, 2, ..., N`. -/
theorem writePump_identifiers (ws : WebSocket) (schedule : List Sched)
    (hbuf : ws.out.buf = []) (hsent : ws.conn.sent = [])
    (hok : ∀ ev ∈ schedule, ev.writeOk = true) :
    (∀ k, k < (writePump ws schedule).ws.conn.written.length →
      (writePump ws schedule).ws.conn.written[k]? =
        ((enqueued { ws := ws, messageId := 0, status := .running } schedule)[k]?).map
          (fun v => v.SetId ((k + 1) % 2 ^ 64))) ∧
    (writePump ws schedule).ws.out.buf =
      (enqueued { ws := ws, messageId := 0, status := .running } schedule).drop
        (writePump ws schedule).ws.conn.written.length ∧
    ((writePump ws schedule).ws.conn.written.length < 2 ^ 64 →
      (writePump ws schedule).ws.conn.written.map IDer.Id =
        List.range' 1 (writePump ws schedule).ws.conn.written.length) := by
  obtain ⟨n, hn, hw, hb⟩ := writePump_fifo ws schedule hbuf hsent hok
  have hlen : (writePump ws schedule).ws.conn.written.length = n := by
    rw [hw, stamp_length, List.length_take]
    omega
  rw [hlen]
  refine ⟨?_, hb, ?_⟩
  · intro k hk
    rw [hw, stamp_getElem?, List.getElem?_take_of_lt hk]
    simp
  · intro hlt
    apply List.ext_getElem?
    intro k
    rw [List.getElem?_map]
    by_cases hk : k < n
    · have hk' : k < ((enqueued { ws := ws, messageId := 0, status := .running }
          schedule).take n).length := by
        rw [List.length_take]; omega
      rw [hw, stamp_Id_getElem? 0 _ k hk', List.getElem?_range' 1 1 hk]
      congr 1
      rw [Nat.mod_eq_of_lt (by omega)]
      omega
    · have h1 : (writePump ws schedule).ws.conn.written[k]? = none := by
        apply List.getElem?_eq_none
        omega
      have h2 : (List.range' 1 n)[k]? = none := by
        apply List.getElem?_eq_none
        simp
        omega
      rw [h1, h2]
      rfl

theorem writePump_identifiers_witness :
    (writePump freshSession
        [.send (.message { Id := 9, Type_ := "message", Channel := "C1", Text := "a" }),
         .tick, .recv none, .recv none]).ws.conn.written.map IDer.Id = List.range' 1 2 :=
  (writePump_identifiers freshSession
    [.send (.message { Id := 9, Type_ := "message", Channel := "C1", Text := "a" }),
     .tick, .recv none, .recv none] rfl rfl (by decide)).2.2 (by decide)

/-- C1 fails beyond `2 ^ 64 - 1` messages. Along `2 ^ 64` rounds, each enqueueing one ping
and writing it with success, `2 ^ 64` values are written, and the last of them carries the
identifier 0, not `2 ^ 64`: the counter is a `uint64`. -/
theorem writePump_identifier_wraps :
    (∀ ev ∈ pingRounds (2 ^ 64), ev.writeOk = true) ∧
    (writePump freshSession (pingRounds (2 ^ 64))).ws.conn.written.length = 2 ^ 64 ∧
    ((writePump freshSession (pingRounds (2 ^ 64))).ws.conn.written[2 ^ 64 - 1]?).map IDer.Id
      = some 0 := by
  have hlen : (writePump freshSession (pingRounds (2 ^ 64))).ws.conn.written.length = 2 ^ 64 := by
    have h := pingRounds_written (2 ^ 64) { ws := freshSession, messageId := 0, status := .running }
      rfl rfl rfl (by decide)
    rw [writePump, h]
    exact Nat.zero_add _
  refine ⟨pingRounds_writeOk _, hlen, ?_⟩
  obtain ⟨n, hn, hw, _⟩ := writePump_fifo freshSession (pingRounds (2 ^ 64)) rfl rfl
    (pingRounds_writeOk _)
  have hn' : n = 2 ^ 64 := by
    rw [hw, stamp_length, List.length_take] at hlen
    omega
  have hk : 2 ^ 64 - 1 < ((enqueued { ws := freshSession, messageId := 0, status := .running }
      (pingRounds (2 ^ 64))).take n).length := by
    rw [List.length_take]
    omega
  rw [hw, stamp_Id_getElem? 0 _ _ hk]
  norm_num

end Slack
